import Mathlib

/-!
Shallow embedding of the camera subsystem in src/rts/Game/Camera.cpp
(Spring engine, class CCamera), over real-number arithmetic.

Floating-point values of the source are modelled as real numbers; the ints
of the source stay integers.  Types declared in headers that are not part
of src/ (float3, the camera-type and frustum-plane enums, config and
render-settings globals) are modelled from the spec where their behaviour
matters and are marked as such in their doc comments.
-/

noncomputable section

namespace SpringCamera

/-- Model of System/float3.h's float3 (not in src/): a 3-vector of reals. -/
structure Float3 where
  x : ℝ
  y : ℝ
  z : ℝ

theorem Float3.ext3 (a b : Float3) (hx : a.x = b.x) (hy : a.y = b.y) (hz : a.z = b.z) :
    a = b := by
  cases a; cases b; simp_all

/-- Componentwise addition, as float3::operator+. -/
def Float3.add (a b : Float3) : Float3 := ⟨a.x + b.x, a.y + b.y, a.z + b.z⟩

instance : Add Float3 := ⟨Float3.add⟩

/-- Componentwise subtraction, as float3::operator-. -/
def Float3.sub (a b : Float3) : Float3 := ⟨a.x - b.x, a.y - b.y, a.z - b.z⟩

instance : Sub Float3 := ⟨Float3.sub⟩

/-- Componentwise negation, as unary float3::operator-. -/
def Float3.neg (a : Float3) : Float3 := ⟨-a.x, -a.y, -a.z⟩

instance : Neg Float3 := ⟨Float3.neg⟩

/-- Scaling by a scalar, as float3::operator*(float). -/
def Float3.scale (a : Float3) (s : ℝ) : Float3 := ⟨a.x * s, a.y * s, a.z * s⟩

instance : HMul Float3 ℝ Float3 := ⟨Float3.scale⟩

/-- float3::dot. -/
def Float3.dot (a b : Float3) : ℝ := a.x * b.x + a.y * b.y + a.z * b.z

/-- float3::cross. -/
def Float3.cross (a b : Float3) : Float3 :=
  ⟨a.y * b.z - a.z * b.y, a.z * b.x - a.x * b.z, a.x * b.y - a.y * b.x⟩

/-- float3::SqLength. -/
def Float3.SqLength (a : Float3) : ℝ := a.x * a.x + a.y * a.y + a.z * a.z

/-- float3::Length. -/
def Float3.Length (a : Float3) : ℝ := Real.sqrt a.SqLength

/-- Modelled from the spec: System/float3.h is not in src/; per the spec all
normalizations used here ("Normalize", "ANormalize", "UnsafeANormalize")
behave as a safe normalize that returns the zero vector for a
(near-)zero-length input instead of producing NaN/Inf; in the real-number
model the degenerate case is exact zero length. -/
def Float3.SafeANormalize (v : Float3) : Float3 :=
  if v.SqLength = 0 then v else v * (1 / v.Length)

@[simp] theorem Float3.add_x (a b : Float3) : (a + b).x = a.x + b.x := rfl
@[simp] theorem Float3.add_y (a b : Float3) : (a + b).y = a.y + b.y := rfl
@[simp] theorem Float3.add_z (a b : Float3) : (a + b).z = a.z + b.z := rfl
@[simp] theorem Float3.sub_x (a b : Float3) : (a - b).x = a.x - b.x := rfl
@[simp] theorem Float3.sub_y (a b : Float3) : (a - b).y = a.y - b.y := rfl
@[simp] theorem Float3.sub_z (a b : Float3) : (a - b).z = a.z - b.z := rfl
@[simp] theorem Float3.neg_x (a : Float3) : (-a).x = -a.x := rfl
@[simp] theorem Float3.neg_y (a : Float3) : (-a).y = -a.y := rfl
@[simp] theorem Float3.neg_z (a : Float3) : (-a).z = -a.z := rfl
@[simp] theorem Float3.scale_x (a : Float3) (s : ℝ) : (a * s).x = a.x * s := rfl
@[simp] theorem Float3.scale_y (a : Float3) (s : ℝ) : (a * s).y = a.y * s := rfl
@[simp] theorem Float3.scale_z (a : Float3) (s : ℝ) : (a * s).z = a.z * s := rfl
@[simp] theorem Float3.mk_x (a b c : ℝ) : (Float3.mk a b c).x = a := rfl
@[simp] theorem Float3.mk_y (a b c : ℝ) : (Float3.mk a b c).y = b := rfl
@[simp] theorem Float3.mk_z (a b c : ℝ) : (Float3.mk a b c).z = c := rfl

/-- System/float3.h constant ZeroVector. -/
def ZeroVector : Float3 := ⟨0, 0, 0⟩

/-- System/float3.h constant UpVector (world up). -/
def UpVector : Float3 := ⟨0, 1, 0⟩

/-- System/float3.h constant RgtVector. -/
def RgtVector : Float3 := ⟨1, 0, 0⟩

/-- System/float3.h constant FwdVector. -/
def FwdVector : Float3 := ⟨0, 0, 1⟩

/-- Perpendicularity of the cross product to its first factor. -/
theorem dot_cross_left (a b : Float3) : Float3.dot (Float3.cross a b) a = 0 := by
  simp [Float3.dot, Float3.cross]; ring

/-- Perpendicularity of the cross product to its second factor. -/
theorem dot_cross_right (a b : Float3) : Float3.dot (Float3.cross a b) b = 0 := by
  simp [Float3.dot, Float3.cross]; ring

/-- Dot product with a scaled vector. -/
theorem dot_scale (a b : Float3) (s : ℝ) :
    Float3.dot (a * s) b = s * Float3.dot a b := by
  simp [Float3.dot]; ring

/-- Dot product is symmetric. -/
theorem dot_comm (a b : Float3) : Float3.dot a b = Float3.dot b a := by
  simp [Float3.dot]; ring

/-! ## Frustum footprint lines (struct FrustumLine, CCamera::ClipFrustumLines) -/

/-- struct FrustumLine of Camera.h: a parametric line in the ground plane
(dir = slope, base = x-intercept, sign = direction of travel, minz/maxz =
valid z-range). -/
structure FrustumLine where
  dir : ℝ
  base : ℝ
  sign : ℤ
  minz : ℝ
  maxz : ℝ

/-- One inner-loop iteration of CCamera::ClipFrustumLines: clip line `fli`
(the outer-loop line) against line `fli2` (the inner-loop line). -/
def clipPairStep (zmin zmax : ℝ) (fli fli2 : FrustumLine) : FrustumLine :=
  let dbase := fli.base - fli2.base
  let ddir := fli.dir - fli2.dir
  if ddir = 0 then fli
  else
    let colz := -(dbase / ddir)
    if ((fli2.sign : ℝ) * ddir) > 0 then
      if colz > fli.minz ∧ colz < zmax then { fli with minz := colz } else fli
    else
      if colz < fli.maxz ∧ colz > zmin then { fli with maxz := colz } else fli

/-- CCamera::ClipFrustumLines on the selected sequence of lines.  The C++
code clips each line in place against every other line of the same
sequence; since the inner loop reads only the dir/base/sign fields of the
other lines and those fields are never written, reading them from the
original list is equivalent to the in-place iteration of the source. -/
def ClipFrustumLines (zmin zmax : ℝ) (lines : List FrustumLine) : List FrustumLine :=
  List.ofFn fun i : Fin lines.length =>
    (List.finRange lines.length).foldl
      (fun acc j => if i = j then acc else clipPairStep zmin zmax acc (lines.get j))
      (lines.get i)

/-- A fold whose step fixes the accumulator on every list element returns
the accumulator. -/
theorem foldl_fixed {α β : Type} (f : β → α → β) (l : List α) (b : β)
    (h : ∀ a, a ∈ l → f b a = b) : List.foldl f b l = b := by
  induction l with
  | nil => rfl
  | cons a l ih =>
      rw [List.foldl_cons, h a (List.mem_cons_self a l)]
      exact ih fun a ha => h a (List.mem_cons_of_mem _ ha)

/-! ## Camera state (class CCamera) -/

/-- Modelled from the spec: the camera-role enumeration of Camera.h (not in
src/).  Only the identity and distinctness of the roles matter; the spec
names player, shadow and visibility-culling roles among a small fixed set. -/
def CAMTYPE_PLAYER : ℕ := 0

/-- Modelled from the spec: shadow-caster camera role (Camera.h not in src/). -/
def CAMTYPE_SHADOW : ℕ := 2

/-- Modelled from the spec: visibility-culling camera role (Camera.h not in src/). -/
def CAMTYPE_VISCUL : ℕ := 4

/-- Modelled from the spec: frustum-plane indices of Camera.h (not in src/),
in the order top, bottom, right, left stated by the spec. -/
def FRUSTUM_PLANE_TOP : Fin 4 := 0

/-- Frustum-plane index: bottom. -/
def FRUSTUM_PLANE_BOT : Fin 4 := 1

/-- Frustum-plane index: right. -/
def FRUSTUM_PLANE_RGT : Fin 4 := 2

/-- Frustum-plane index: left. -/
def FRUSTUM_PLANE_LFT : Fin 4 := 3

/-- The per-camera state of class CCamera (fields declared in Camera.h,
manipulated by src/rts/Game/Camera.cpp).  The 4x4 matrices are modelled as
16-entry real arrays, the viewport as 4 ints, and the movement/rotation
key-state arrays as boolean flags; their internal structure is irrelevant
to the claims, which only track whether these fields change. -/
structure CameraState where
  pos : Float3
  rot : Float3
  forward : Float3
  right : Float3
  up : Float3
  fov : ℝ
  halfFov : ℝ
  tanHalfFov : ℝ
  lppScale : ℝ
  posOffset : Float3
  tiltOffset : Float3
  camType : ℕ
  frustumPlanes : Fin 4 → Float3
  viewMatrix : Fin 16 → ℝ
  projectionMatrix : Fin 16 → ℝ
  viewProjectionMatrix : Fin 16 → ℝ
  viewMatrixInverse : Fin 16 → ℝ
  projectionMatrixInverse : Fin 16 → ℝ
  viewProjectionMatrixInverse : Fin 16 → ℝ
  billboardMatrix : Fin 16 → ℝ
  viewport : Fin 4 → ℤ
  movState : Fin 8 → Bool
  rotState : Fin 4 → Bool

/-- A concrete camera value (used to instantiate theorems at concrete
inputs); field values follow the CCamera constructor where it sets them. -/
def cam0 : CameraState where
  pos := ZeroVector
  rot := ZeroVector
  forward := RgtVector
  right := ZeroVector
  up := UpVector
  fov := 45
  halfFov := 0
  tanHalfFov := 0
  lppScale := 0
  posOffset := ZeroVector
  tiltOffset := ZeroVector
  camType := CAMTYPE_PLAYER
  frustumPlanes := fun _ => UpVector
  viewMatrix := fun _ => 0
  projectionMatrix := fun _ => 0
  viewProjectionMatrix := fun _ => 0
  viewMatrixInverse := fun _ => 0
  projectionMatrixInverse := fun _ => 0
  viewProjectionMatrixInverse := fun _ => 0
  billboardMatrix := fun _ => 0
  viewport := fun _ => 0
  movState := fun _ => false
  rotState := fun _ => false

/-- CCamera::CopyState: copy the four frustum planes, the basis vectors,
position, rotation, lppScale and camType from `src` into `dst`, leaving
every other field of `dst` unchanged. -/
def CopyState (dst src : CameraState) : CameraState :=
  { dst with
    frustumPlanes := src.frustumPlanes
    forward := src.forward
    right := src.right
    up := src.up
    pos := src.pos
    rot := src.rot
    lppScale := src.lppScale
    camType := src.camType }

/-- The four frustum planes computed by CCamera::UpdateFrustum from the
camera's orientation, fov and the global aspect ratio. -/
def UpdateFrustumPlanes (aspectRatio : ℝ) (cam : CameraState) : Fin 4 → Float3 :=
  let forwardy := (-cam.forward) * cam.tanHalfFov
  let forwardx := (-cam.forward) * Real.tan (aspectRatio * cam.halfFov)
  fun i =>
    match i with
    | ⟨0, _⟩ => (forwardy + cam.up).SafeANormalize
    | ⟨1, _⟩ => (forwardy - cam.up).SafeANormalize
    | ⟨2, _⟩ => (forwardx + cam.right).SafeANormalize
    | ⟨3, _⟩ => (forwardx - cam.right).SafeANormalize

/-- The effect of CCamera::UpdateFrustum on the camera itself: only the
frustumPlanes field is written. -/
def UpdateFrustum (aspectRatio : ℝ) (cam : CameraState) : CameraState :=
  { cam with frustumPlanes := UpdateFrustumPlanes aspectRatio cam }

/-- The effect of CCamera::UpdateFrustum on the global camera registry
CCamera::camTypes: the camera at index `t` recomputes its planes, and if
its camType field is the player or shadow role, the visibility-culling
camera copies the state of the registry entry at that camType index
(in the source, camTypes[CAMTYPE_VISCUL]->CopyState(camTypes[camType])). -/
def UpdateFrustumGlobal (aspectRatio : ℝ) (camTypes : ℕ → CameraState) (t : ℕ) :
    ℕ → CameraState :=
  let c := UpdateFrustum aspectRatio (camTypes t)
  let reg1 := Function.update camTypes t c
  if c.camType = CAMTYPE_PLAYER ∨ c.camType = CAMTYPE_SHADOW then
    Function.update reg1 CAMTYPE_VISCUL (CopyState (reg1 CAMTYPE_VISCUL) (reg1 c.camType))
  else
    reg1

/-! ## View range adaptation (CCamera::ComputeViewRange) -/

/-- Square(x) of System/myMath.h. -/
def Square (x : ℝ) : ℝ := x * x

/-- CCamera::ComputeViewRange.  CGlobalRendering::MAX_VIEW_RANGE and
CGlobalRendering::NEAR_PLANE are constants of a header that is not in
src/; they appear as the parameters `maxViewRange` and `nearPlane`
(the spec's referenceMaxRange and referenceNearPlane).  `maxxpos` and
`maxzpos` are the float3 map-extent statics, `currMinHeight` the value
of readMap->GetCurrMinHeight().  The result is the pair
(globalRendering->zNear, globalRendering->viewRange) written by the call. -/
def ComputeViewRange (maxViewRange nearPlane maxxpos maxzpos : ℝ)
    (pos forward : Float3) (currMinHeight : ℝ) : ℝ × ℝ :=
  let azimuthCos := Float3.dot forward UpVector
  let maxDistToBorderX := max pos.x (maxxpos - pos.x)
  let maxDistToBorderZ := max pos.z (maxzpos - pos.z)
  let minViewRange :=
    (1 - azimuthCos) * Real.sqrt (Square maxDistToBorderX + Square maxDistToBorderZ)
  let wanted1 := max maxViewRange ((pos.y - max 0 currMinHeight) * 2.4)
  let wanted2 := max wanted1 minViewRange
  let factor := wanted2 / maxViewRange
  (nearPlane * factor, maxViewRange * factor)

/-! ## Visibility tests (AABBInOriginPlane, CCamera::InView) -/

/-- static AABBInOriginPlane of Camera.cpp: per-axis, pick the min corner
coordinate when the plane component is positive, else the max, and accept
exactly when that far point lies strictly on the negative side of the
plane through the camera position. -/
def AABBInOriginPlane (plane camPos mins maxs : Float3) : Prop :=
  let fp : Float3 :=
    ⟨if plane.x > 0 then mins.x else maxs.x,
     if plane.y > 0 then mins.y else maxs.y,
     if plane.z > 0 then mins.z else maxs.z⟩
  Float3.dot plane (fp - camPos) < 0

/-- CCamera::InView(mins, maxs): the axis-aligned-box test, true when no
frustum plane rejects the box. -/
def InViewBox (cam : CameraState) (mins maxs : Float3) : Prop :=
  ∀ i : Fin 4, AABBInOriginPlane (cam.frustumPlanes i) cam.pos mins maxs

/-- CCamera::InView(p, radius): the sphere test; `viewRange` is the
globalRendering->viewRange read by the final base-plane check. -/
def InViewSphere (cam : CameraState) (viewRange : ℝ) (p : Float3) (radius : ℝ) : Prop :=
  let vec := p - cam.pos
  (∀ i : Fin 4, ¬(Float3.dot vec (cam.frustumPlanes i) > radius)) ∧
    vec.SqLength ≤ Square (viewRange + radius)

/-! ## Orientation math (GetRotFromDir, GetFwdFromRot, GetRgtFromRot) -/

/-- math::atan2 modelled over the reals as the argument of the complex
number x + iy, the principal value in (-π, π] with atan2 0 0 = 0; the
signed-zero distinctions of IEEE floats collapse in this model. -/
def atan2 (y x : ℝ) : ℝ := Complex.arg ⟨x, y⟩

/-- HALFPI of System/myMath.h. -/
def HALFPI : ℝ := Real.pi / 2

/-- CCamera::GetRotFromDir: normalize the direction, then take
x = acos(fwd.y), y = atan2(fwd.x, -fwd.z), z = 0. -/
def GetRotFromDir (fwd : Float3) : Float3 :=
  let f := fwd.SafeANormalize
  ⟨Real.arccos f.y, atan2 f.x (-f.z), 0⟩

/-- CCamera::GetFwdFromRot: the forward vector of a rotation triple. -/
def GetFwdFromRot (r : Float3) : Float3 :=
  ⟨Real.sin r.x * Real.sin r.y, Real.cos r.x, Real.sin r.x * (-Real.cos r.y)⟩

/-- CCamera::GetRgtFromRot: the right vector of a rotation triple (the
source notes this formula does not keep right perpendicular to forward
under roll). -/
def GetRgtFromRot (r : Float3) : Float3 :=
  ⟨Real.sin (HALFPI - r.z) * Real.sin (r.y + HALFPI),
   Real.cos (HALFPI - r.z),
   Real.sin (HALFPI - r.z) * (-Real.cos (r.y + HALFPI))⟩

/-- CCamera::UpdateDirsFromRot: forward and right from the rotation, then
up re-derived as the normalized cross product right x forward. -/
def UpdateDirsFromRot (cam : CameraState) (r : Float3) : CameraState :=
  let fwd := GetFwdFromRot r
  let rgt := GetRgtFromRot r
  { cam with
    forward := fwd
    right := rgt
    up := (Float3.cross rgt fwd).SafeANormalize }

/-! ## Screen ray (CCamera::CalcPixelDir) and frustum footprint extraction -/

/-- CCamera::CalcPixelDir: the world-space ray of a pixel; the viewport
sizes are floored at 1 before use as divisors. -/
def CalcPixelDir (viewPosX viewSizeX viewSizeY : ℤ) (tanHalfFov : ℝ)
    (forward up right : Float3) (x y : ℤ) : Float3 :=
  let vsx : ℤ := max 1 viewSizeX
  let vsy : ℤ := max 1 viewSizeY
  let dx : ℝ := ((x - viewPosX - vsx / 2 : ℤ) : ℝ) / (vsy : ℝ) * (tanHalfFov * 2)
  let dy : ℝ := ((y - vsy / 2 : ℤ) : ℝ) / (vsy : ℝ) * (tanHalfFov * 2)
  (forward - up * dy + right * dx).SafeANormalize

/-- The divisor guard of CCamera::GetFrustumSide: xdir.z is replaced by
0.001 whenever its magnitude falls below 0.001, before being used as a
divisor. -/
def clampDivisorZ (t : ℝ) : ℝ := if |t| < 0.001 then 0.001 else t

/-- CCamera::GetFrustumSide: build the in-plane axes around `zdir`,
intersect the ray from the camera along ydir with the horizontal plane at
miny or maxy, and file the resulting ground-plane line.  `mapy` stands
for mapDims.mapy and `squareSize` for SQUARE_SIZE (globals not in src/);
pInt is default-initialized to the zero vector when ydir.y = 0. -/
def GetFrustumSide (pos : Float3) (mapy squareSize : ℝ) (zdir offset : Float3)
    (miny maxy scale : ℝ) (upwardDir : Bool) : FrustumLine :=
  let xdir := (Float3.cross zdir UpVector).SafeANormalize
  let ydir := (Float3.cross zdir xdir).SafeANormalize
  let xdirz := clampDivisorZ xdir.z
  let pInt : Float3 :=
    if ydir.y ≠ 0 then
      if upwardDir then pos + offset - ydir * ((pos.y - miny) / ydir.y)
      else pos + offset - ydir * ((pos.y - maxy) / ydir.y)
    else ZeroVector
  let dir := xdir.x / xdirz
  { dir := dir
    base := (pInt.x - pInt.z * dir) / scale
    sign := if xdirz ≤ 0 then 1 else -1
    minz := 0 - mapy
    maxz := mapy * squareSize + mapy }

/-! ## Movement-state vector (CCamera::GetMoveVectorFromState)

The edge-scroll computation is trig-free, so it is embedded over the
exact rationals; float constants of the source (0.02, 0.001, 0.9, 9.0)
are exact rationals here. -/

/-- Truncation of a rational toward zero, the conversion applied when the
C++ code assigns a float to an int. -/
def truncToInt (q : ℚ) : ℤ := if q < 0 then -Int.floor (-q) else Int.floor q

/-- Clamp of System/myMath.h on ints: max lo (min v hi). -/
def ClampInt (v lo hi : ℤ) : ℤ := max lo (min v hi)

/-- Clamp of System/myMath.h on rationals. -/
def ClampQ (v lo hi : ℚ) : ℚ := max lo (min v hi)

/-- std::copysign modelled over ℚ: the magnitude of the first argument
with the sign of the second.  ℚ has no signed zero, so a second argument
of 0 counts as positive; the IEEE -0.0 cases of the source do not arise
at the inputs considered by the claims. -/
def copysignQ (m s : ℚ) : ℚ := if s < 0 then -|m| else |m|

/-- The camDeltaTime/camMoveSpeed prologue of CCamera::GetMoveDistance as
called by GetMoveVectorFromState (idx = -1): time is the last frame time
and speed is scaled by the slow (x 0.1) and fast (x 10) modifier flags. -/
def GetMoveDistanceSpeed (slw fst : Bool) : ℚ :=
  (1 - (if slw then (1 : ℚ) else 0) * (9 / 10)) * (1 + (if fst then (1 : ℚ) else 0) * 9)

/-- CCamera::GetMoveVectorFromState for fromKeyState = false (edge
scrolling).  Inputs: the last frame time, the slow/fast modifier flags,
the viewport size, the dual-screen flag, the EdgeMoveWidth and
EdgeMoveDynamic configuration values, and the cursor position
(mouse->lastx/lasty).  Returns (v.x, v.y, v.z) of the source. -/
def GetMoveVectorFromState (lastFrameTime : ℚ) (slw fst : Bool)
    (viewSizeX viewSizeY : ℤ) (dualScreenMode : Bool)
    (edgeMoveWidth : ℚ) (edgeMoveDynamic : Bool) (lastx lasty : ℤ) : ℚ × ℚ × ℚ :=
  let camDeltaTime := lastFrameTime
  let camMoveSpeed := GetMoveDistanceSpeed slw fst
  let screenH := viewSizeY
  let screenW := if dualScreenMode then viewSizeX * 2 else viewSizeX
  let borderx : ℤ := max 1 (truncToInt ((screenW : ℚ) * edgeMoveWidth))
  let bordery : ℤ := max 1 (truncToInt ((screenH : ℚ) * edgeMoveWidth))
  let dx0 : ℚ := ((ClampInt lastx 0 screenW : ℤ) : ℚ)
  let dy0 : ℚ := ((ClampInt lasty 0 screenH : ℤ) : ℚ)
  let dx1 : ℚ := if ((screenW - 1 : ℤ) : ℚ) - dx0 < dx0 then -(((screenW - 1 : ℤ) : ℚ) - dx0) else dx0
  let dy1 : ℚ := if ((screenH - 1 : ℤ) : ℚ) - dy0 < dy0 then -(((screenH - 1 : ℤ) : ℚ) - dy0) else dy0
  let dx2 : ℚ := -dx1
  let movex0 : ℚ :=
    if edgeMoveDynamic then ClampQ (((borderx : ℚ) - |dx2|) / (borderx : ℚ)) 0 1
    else if |dx2| < (borderx : ℚ) then 1 else 0
  let movey0 : ℚ :=
    if edgeMoveDynamic then ClampQ (((bordery : ℚ) - |dy1|) / (bordery : ℚ)) 0 1
    else if |dy1| < (bordery : ℚ) then 1 else 0
  let movex := copysignQ movex0 dx2
  let movey := copysignQ movey0 dy1
  (camDeltaTime * (1 / 1000) * movex, camDeltaTime * (1 / 1000) * movey, camMoveSpeed)

/-! ## Helper lemmas -/

/-- A vector of squared length zero is the zero vector. -/
theorem sqLength_eq_zero {v : Float3} (h : v.SqLength = 0) : v = ZeroVector := by
  unfold Float3.SqLength at h
  have hx : v.x = 0 := by nlinarith [mul_self_nonneg v.x, mul_self_nonneg v.y, mul_self_nonneg v.z]
  have hy : v.y = 0 := by nlinarith [mul_self_nonneg v.x, mul_self_nonneg v.y, mul_self_nonneg v.z]
  have hz : v.z = 0 := by nlinarith [mul_self_nonneg v.x, mul_self_nonneg v.y, mul_self_nonneg v.z]
  exact Float3.ext3 _ _ hx hy hz

/-- Dot product with a scaled vector on the right. -/
theorem dot_scale_right (a b : Float3) (s : ℝ) :
    Float3.dot a (b * s) = s * Float3.dot a b := by
  simp [Float3.dot]; ring

/-- The safe-normalized cross product stays perpendicular to the second
factor of the cross product. -/
theorem dot_safeANormalize_cross_snd (a b : Float3) :
    Float3.dot b ((Float3.cross a b).SafeANormalize) = 0 := by
  unfold Float3.SafeANormalize
  split_ifs with h
  · rw [sqLength_eq_zero h]
    simp [Float3.dot, ZeroVector]
  · rw [dot_scale_right, dot_comm, dot_cross_right, mul_zero]

/-- The safe-normalized cross product stays perpendicular to the first
factor of the cross product. -/
theorem dot_safeANormalize_cross_fst (a b : Float3) :
    Float3.dot a ((Float3.cross a b).SafeANormalize) = 0 := by
  unfold Float3.SafeANormalize
  split_ifs with h
  · rw [sqLength_eq_zero h]
    simp [Float3.dot, ZeroVector]
  · rw [dot_scale_right, dot_comm, dot_cross_left, mul_zero]

/-! ## Claim theorems -/

/-- C1: ClipFrustumLines clips lines pairwise: for an ordered pair of
distinct lines (i, j) with differing dir, the crossing
colz = -(base_i - base_j)/(dir_i - dir_j) is computed; when
sign_j * (dir_i - dir_j) > 0, minz_i becomes colz exactly when
colz > minz_i and colz < zmax, otherwise maxz_i becomes colz exactly when
colz < maxz_i and colz > zmin.  Pairs with equal dir contribute no
constraint and cause no division by zero: a per-pair step with equal dirs
is the identity, and ClipFrustumLines on a sequence of equal-dir lines
returns it unchanged. -/
theorem clip_frustum_lines_pair_rule (zmin zmax : ℝ) (li lj : FrustumLine) :
    (li.dir = lj.dir → clipPairStep zmin zmax li lj = li) ∧
    (li.dir ≠ lj.dir →
      clipPairStep zmin zmax li lj =
        (if ((lj.sign : ℝ)) * (li.dir - lj.dir) > 0 then
          { li with minz :=
              if -((li.base - lj.base) / (li.dir - lj.dir)) > li.minz ∧
                  -((li.base - lj.base) / (li.dir - lj.dir)) < zmax then
                -((li.base - lj.base) / (li.dir - lj.dir))
              else li.minz }
        else
          { li with maxz :=
              if -((li.base - lj.base) / (li.dir - lj.dir)) < li.maxz ∧
                  -((li.base - lj.base) / (li.dir - lj.dir)) > zmin then
                -((li.base - lj.base) / (li.dir - lj.dir))
              else li.maxz })) ∧
    (∀ lines : List FrustumLine,
      (∀ l, l ∈ lines → ∀ m, m ∈ lines → l.dir = m.dir) →
      ClipFrustumLines zmin zmax lines = lines) := by
  refine ⟨?_, ?_, ?_⟩
  · intro h
    simp [clipPairStep, h]
  · intro h
    simp only [clipPairStep]
    rw [if_neg (sub_ne_zero_of_ne h)]
    split_ifs <;> rfl
  · intro lines hdir
    unfold ClipFrustumLines
    have h1 : ∀ i : Fin lines.length,
        (List.finRange lines.length).foldl
          (fun acc j => if i = j then acc else clipPairStep zmin zmax acc (lines.get j))
          (lines.get i) = lines.get i := by
      intro i
      apply foldl_fixed
      intro j _
      by_cases hij : i = j
      · simp [hij]
      · rw [if_neg hij]
        have hd0 : (lines.get i).dir - (lines.get j).dir = 0 :=
          sub_eq_zero_of_eq (hdir _ (lines.get_mem i.1 i.2) _ (lines.get_mem j.1 j.2))
        simp only [List.get_eq_getElem] at hd0
        simp [clipPairStep, hd0]
    rw [show (fun i : Fin lines.length =>
        (List.finRange lines.length).foldl
          (fun acc j => if i = j then acc else clipPairStep zmin zmax acc (lines.get j))
          (lines.get i)) = fun i => lines.get i from funext h1]
    exact List.ofFn_get lines

/-- Concrete frustum line of the spec scenario: slope 1, base 0, sign +1. -/
def cl1 : FrustumLine := ⟨1, 0, 1, -100, 100⟩

/-- Concrete frustum line of the spec scenario: slope -1, base 10, sign -1. -/
def cl2 : FrustumLine := ⟨-1, 10, -1, -100, 100⟩

/-- The spec scenario instantiating C1: slopes 1 and -1, bases 0 and 10,
signs +1 and -1 give crossing z = 5, and the sign rule tightens maxz. -/
theorem clip_frustum_lines_pair_rule_witness :
    clipPairStep (-50) 50 cl1 cl2 = { cl1 with maxz := 5 } := by
  have h := (clip_frustum_lines_pair_rule (-50) 50 cl1 cl2).2.1 (by norm_num [cl1, cl2])
  rw [h]
  norm_num [cl1, cl2]

/-- C2: UpdateFrustum sets the four frustum planes, in order top, bottom,
right, left, to normalize(forwardY + up), normalize(forwardY - up),
normalize(forwardX + right), normalize(forwardX - right) with
forwardY = -forward * tanHalfFov and
forwardX = -forward * tan(aspectRatio * halfFov). -/
theorem update_frustum_plane_formulas (aspectRatio : ℝ) (cam : CameraState) :
    UpdateFrustumPlanes aspectRatio cam FRUSTUM_PLANE_TOP
        = ((-cam.forward) * cam.tanHalfFov + cam.up).SafeANormalize ∧
    UpdateFrustumPlanes aspectRatio cam FRUSTUM_PLANE_BOT
        = ((-cam.forward) * cam.tanHalfFov - cam.up).SafeANormalize ∧
    UpdateFrustumPlanes aspectRatio cam FRUSTUM_PLANE_RGT
        = ((-cam.forward) * Real.tan (aspectRatio * cam.halfFov) + cam.right).SafeANormalize ∧
    UpdateFrustumPlanes aspectRatio cam FRUSTUM_PLANE_LFT
        = ((-cam.forward) * Real.tan (aspectRatio * cam.halfFov) - cam.right).SafeANormalize := by
  exact ⟨rfl, rfl, rfl, rfl⟩

/-- C3 (amended): the axis-aligned-box test on a zero-size box placed
exactly at the camera position returns false for every camera state: the
per-plane test demands a strictly negative dot product, and this box
yields dot product exactly 0 on every plane. -/
theorem box_at_camera_position_not_in_view (cam : CameraState) :
    InViewBox cam cam.pos cam.pos ↔ False := by
  simp only [iff_false]
  intro h
  have h0 := h 0
  simp only [AABBInOriginPlane, ite_self] at h0
  simp [Float3.dot] at h0

/-- C3 (counterexample): at a concrete camera state, InView(mins, maxs)
with mins = maxs = camera position returns false, refuting the claim that
it returns true. -/
theorem box_at_camera_position_counterexample :
    InViewBox cam0 cam0.pos cam0.pos ↔ False := by
  simp only [iff_false]
  intro h
  have h0 := h 0
  simp only [AABBInOriginPlane, ite_self] at h0
  simp [Float3.dot] at h0

/-- C6: ComputeViewRange keeps viewRange / zNear equal to
MAX_VIEW_RANGE / NEAR_PLANE: both outputs are the reference constants
scaled by the factor wantedViewRange / MAX_VIEW_RANGE, where
wantedViewRange = max(MAX_VIEW_RANGE, (pos.y - max(0, terrainMinHeight)) * 2.4,
(1 - forward.dot upWorld) * sqrt(maxDistToBorderX^2 + maxDistToBorderZ^2)).
The reference constants (positive in the engine) are parameters here. -/
theorem compute_view_range_ratio (maxViewRange nearPlane maxxpos maxzpos currMinHeight : ℝ)
    (pos forward : Float3) (hR : 0 < maxViewRange) (hN : nearPlane ≠ 0) :
    (ComputeViewRange maxViewRange nearPlane maxxpos maxzpos pos forward currMinHeight).2
        / (ComputeViewRange maxViewRange nearPlane maxxpos maxzpos pos forward currMinHeight).1
      = maxViewRange / nearPlane ∧
    (ComputeViewRange maxViewRange nearPlane maxxpos maxzpos pos forward currMinHeight).1
      = nearPlane *
        (max maxViewRange (max ((pos.y - max 0 currMinHeight) * 2.4)
            ((1 - Float3.dot forward UpVector) *
              Real.sqrt (Square (max pos.x (maxxpos - pos.x)) + Square (max pos.z (maxzpos - pos.z)))))
          / maxViewRange) ∧
    (ComputeViewRange maxViewRange nearPlane maxxpos maxzpos pos forward currMinHeight).2
      = maxViewRange *
        (max maxViewRange (max ((pos.y - max 0 currMinHeight) * 2.4)
            ((1 - Float3.dot forward UpVector) *
              Real.sqrt (Square (max pos.x (maxxpos - pos.x)) + Square (max pos.z (maxzpos - pos.z)))))
          / maxViewRange) := by
  have hc : ComputeViewRange maxViewRange nearPlane maxxpos maxzpos pos forward currMinHeight
      = (nearPlane *
          (max (max maxViewRange ((pos.y - max 0 currMinHeight) * 2.4))
              ((1 - Float3.dot forward UpVector) *
                Real.sqrt (Square (max pos.x (maxxpos - pos.x)) + Square (max pos.z (maxzpos - pos.z))))
            / maxViewRange),
         maxViewRange *
          (max (max maxViewRange ((pos.y - max 0 currMinHeight) * 2.4))
              ((1 - Float3.dot forward UpVector) *
                Real.sqrt (Square (max pos.x (maxxpos - pos.x)) + Square (max pos.z (maxzpos - pos.z))))
            / maxViewRange)) := rfl
  rw [hc, max_assoc]
  have hwpos : 0 < max maxViewRange (max ((pos.y - max 0 currMinHeight) * 2.4)
      ((1 - Float3.dot forward UpVector) *
        Real.sqrt (Square (max pos.x (maxxpos - pos.x)) + Square (max pos.z (maxzpos - pos.z))))) :=
    lt_of_lt_of_le hR (le_max_left _ _)
  have hfne : max maxViewRange (max ((pos.y - max 0 currMinHeight) * 2.4)
      ((1 - Float3.dot forward UpVector) *
        Real.sqrt (Square (max pos.x (maxxpos - pos.x)) + Square (max pos.z (maxzpos - pos.z)))))
      / maxViewRange ≠ 0 :=
    ne_of_gt (div_pos hwpos hR)
  exact ⟨mul_div_mul_right _ _ hfne, rfl, rfl⟩

/-- Concrete instance of C6: with reference range 8000 and near plane 2.8
(as exact rationals), the computed far/near ratio equals the reference
ratio. -/
theorem compute_view_range_ratio_witness :
    (ComputeViewRange 8000 (28 / 10) 1024 1024 ZeroVector FwdVector 0).2
        / (ComputeViewRange 8000 (28 / 10) 1024 1024 ZeroVector FwdVector 0).1
      = 8000 / (28 / 10) :=
  (compute_view_range_ratio 8000 (28 / 10) 1024 1024 0 ZeroVector FwdVector
    (by norm_num) (by norm_num)).1

/-- C7: the sphere test InView(p, rho) accepts exactly when every frustum
plane sees (p - pos) within rho and the squared distance stays within
(viewRange + rho)^2; in particular the camera's own position with radius
0 is in view whenever viewRange is nonnegative. -/
theorem sphere_in_view_iff (cam : CameraState) (viewRange : ℝ) (p : Float3) (radius : ℝ) :
    (InViewSphere cam viewRange p radius ↔
      ((∀ i : Fin 4, Float3.dot (p - cam.pos) (cam.frustumPlanes i) ≤ radius) ∧
        (p - cam.pos).SqLength ≤ (viewRange + radius) ^ 2)) ∧
    (0 ≤ viewRange → InViewSphere cam viewRange cam.pos 0) := by
  constructor
  · unfold InViewSphere Square
    simp [not_lt, sq]
  · intro hvr
    unfold InViewSphere Square
    constructor
    · intro i
      simp [Float3.dot]
    · simp only [Float3.SqLength]
      simp
      positivity

/-- Concrete instance of C7: the camera position itself with radius 0 is
in view at view range 0. -/
theorem sphere_in_view_iff_witness : InViewSphere cam0 0 cam0.pos 0 :=
  (sphere_in_view_iff cam0 0 cam0.pos 0).2 (le_refl 0)

/-- C8: the footprint extraction and the pixel-ray computation guard all
divisions and normalizations: GetFrustumSide divides only by the clamped
xdir.z whose magnitude is at least 0.001, CalcPixelDir floors the
viewport dimensions at 1 (so its divisor is nonzero), and safe
normalization of a zero-length vector yields the zero vector. -/
theorem frustum_side_pixel_dir_guards :
    (∀ t : ℝ, 0.001 ≤ |clampDivisorZ t| ∧ clampDivisorZ t ≠ 0) ∧
    (∀ (pos : Float3) (mapy squareSize : ℝ) (zdir offset : Float3)
        (miny maxy scale : ℝ) (upwardDir : Bool),
      (GetFrustumSide pos mapy squareSize zdir offset miny maxy scale upwardDir).dir
        = ((Float3.cross zdir UpVector).SafeANormalize).x
            / clampDivisorZ ((Float3.cross zdir UpVector).SafeANormalize).z) ∧
    (∀ viewSizeX viewSizeY : ℤ,
      ((1 : ℤ) ≤ max 1 viewSizeX ∧ (1 : ℤ) ≤ max 1 viewSizeY) ∧
        ((max 1 viewSizeY : ℤ) : ℝ) ≠ 0) ∧
    Float3.SafeANormalize ZeroVector = ZeroVector := by
  refine ⟨?_, ?_, ?_, ?_⟩
  · intro t
    unfold clampDivisorZ
    split_ifs with h
    · have habs : |(0.001 : ℝ)| = 0.001 := abs_of_pos (by norm_num)
      rw [habs]
      norm_num
    · have h1 : (0.001 : ℝ) ≤ |t| := not_lt.mp h
      refine ⟨h1, ?_⟩
      intro h0
      rw [h0] at h1
      norm_num at h1
  · intro pos mapy squareSize zdir offset miny maxy scale upwardDir
    rfl
  · intro viewSizeX viewSizeY
    refine ⟨⟨le_max_left _ _, le_max_left _ _⟩, ?_⟩
    have h1 : (1 : ℤ) ≤ max 1 viewSizeY := le_max_left _ _
    exact_mod_cast show ((max 1 viewSizeY : ℤ) : ℝ) ≠ 0 from by
      exact_mod_cast show (max 1 viewSizeY : ℤ) ≠ 0 by omega
  · unfold Float3.SafeANormalize
    rw [if_pos]
    unfold Float3.SqLength ZeroVector
    norm_num

/-- C10: CopyState copies exactly the four frustum planes, forward,
right, up, position, rotation, lppScale and camType, leaving fov,
halfFov, tanHalfFov, all matrices, viewport, movement state and the
offsets unchanged; consequently, after a player or shadow camera runs
UpdateFrustum, the visibility-culling camera's camType equals the driving
camera's type, while its fov fields and matrices keep their previous
values. -/
theorem copy_state_fields (dst src : CameraState) (aspectRatio : ℝ)
    (reg : ℕ → CameraState) (t : ℕ)
    (hreg : (reg t).camType = t)
    (ht : t = CAMTYPE_PLAYER ∨ t = CAMTYPE_SHADOW) :
    ((CopyState dst src).frustumPlanes = src.frustumPlanes ∧
     (CopyState dst src).forward = src.forward ∧
     (CopyState dst src).right = src.right ∧
     (CopyState dst src).up = src.up ∧
     (CopyState dst src).pos = src.pos ∧
     (CopyState dst src).rot = src.rot ∧
     (CopyState dst src).lppScale = src.lppScale ∧
     (CopyState dst src).camType = src.camType) ∧
    ((CopyState dst src).fov = dst.fov ∧
     (CopyState dst src).halfFov = dst.halfFov ∧
     (CopyState dst src).tanHalfFov = dst.tanHalfFov ∧
     (CopyState dst src).viewMatrix = dst.viewMatrix ∧
     (CopyState dst src).projectionMatrix = dst.projectionMatrix ∧
     (CopyState dst src).viewProjectionMatrix = dst.viewProjectionMatrix ∧
     (CopyState dst src).viewMatrixInverse = dst.viewMatrixInverse ∧
     (CopyState dst src).projectionMatrixInverse = dst.projectionMatrixInverse ∧
     (CopyState dst src).viewProjectionMatrixInverse = dst.viewProjectionMatrixInverse ∧
     (CopyState dst src).billboardMatrix = dst.billboardMatrix ∧
     (CopyState dst src).viewport = dst.viewport ∧
     (CopyState dst src).movState = dst.movState ∧
     (CopyState dst src).rotState = dst.rotState ∧
     (CopyState dst src).posOffset = dst.posOffset ∧
     (CopyState dst src).tiltOffset = dst.tiltOffset) ∧
    ((UpdateFrustumGlobal aspectRatio reg t CAMTYPE_VISCUL).camType = (reg t).camType ∧
     (UpdateFrustumGlobal aspectRatio reg t CAMTYPE_VISCUL).fov = (reg CAMTYPE_VISCUL).fov ∧
     (UpdateFrustumGlobal aspectRatio reg t CAMTYPE_VISCUL).halfFov
        = (reg CAMTYPE_VISCUL).halfFov ∧
     (UpdateFrustumGlobal aspectRatio reg t CAMTYPE_VISCUL).tanHalfFov
        = (reg CAMTYPE_VISCUL).tanHalfFov ∧
     (UpdateFrustumGlobal aspectRatio reg t CAMTYPE_VISCUL).projectionMatrix
        = (reg CAMTYPE_VISCUL).projectionMatrix ∧
     (UpdateFrustumGlobal aspectRatio reg t CAMTYPE_VISCUL).viewMatrix
        = (reg CAMTYPE_VISCUL).viewMatrix ∧
     (UpdateFrustumGlobal aspectRatio reg t CAMTYPE_VISCUL).viewport
        = (reg CAMTYPE_VISCUL).viewport ∧
     (UpdateFrustumGlobal aspectRatio reg t CAMTYPE_VISCUL).movState
        = (reg CAMTYPE_VISCUL).movState) := by
  refine ⟨⟨rfl, rfl, rfl, rfl, rfl, rfl, rfl, rfl⟩,
    ⟨rfl, rfl, rfl, rfl, rfl, rfl, rfl, rfl, rfl, rfl, rfl, rfl, rfl, rfl, rfl⟩, ?_⟩
  rcases ht with h | h <;> subst h <;>
    simp only [CAMTYPE_PLAYER, CAMTYPE_SHADOW, CAMTYPE_VISCUL] at hreg ⊢ <;>
    simp only [UpdateFrustumGlobal, UpdateFrustum, CopyState, Function.update_apply] <;>
    simp [hreg, CAMTYPE_PLAYER, CAMTYPE_SHADOW, CAMTYPE_VISCUL]

/-- A concrete registry mapping every index to the concrete camera (whose
camType is the player role), instantiating C10. -/
def regP : ℕ → CameraState := fun _ => cam0

/-- Concrete instance of C10: after the player camera's frustum update,
the visibility-culling camera's camType equals the player camera's type. -/
theorem copy_state_fields_witness :
    (UpdateFrustumGlobal 1 regP CAMTYPE_PLAYER CAMTYPE_VISCUL).camType
      = (regP CAMTYPE_PLAYER).camType :=
  (copy_state_fields cam0 cam0 1 regP CAMTYPE_PLAYER rfl (Or.inl rfl)).2.2.1

/-- C5 (amended): after UpdateDirsFromRot(r), forward.dot up and
right.dot up are within 1e-5 of 0 for every rotation triple (up is the
normalized cross product of right and forward), but forward.dot right is
only guaranteed within 1e-5 of 0 when the roll component r.z is 0: in
general it equals cos(r.x) * sin(r.z), which the counterexample shows can
be 1. -/
theorem update_dirs_basis_orthogonality (cam : CameraState) (r : Float3) :
    |Float3.dot (UpdateDirsFromRot cam r).forward (UpdateDirsFromRot cam r).up| ≤ 1e-5 ∧
    |Float3.dot (UpdateDirsFromRot cam r).right (UpdateDirsFromRot cam r).up| ≤ 1e-5 ∧
    (r.z = 0 →
      |Float3.dot (UpdateDirsFromRot cam r).forward (UpdateDirsFromRot cam r).right| ≤ 1e-5) := by
  refine ⟨?_, ?_, ?_⟩
  · show |Float3.dot (GetFwdFromRot r)
        ((Float3.cross (GetRgtFromRot r) (GetFwdFromRot r)).SafeANormalize)| ≤ 1e-5
    rw [dot_safeANormalize_cross_snd]
    norm_num
  · show |Float3.dot (GetRgtFromRot r)
        ((Float3.cross (GetRgtFromRot r) (GetFwdFromRot r)).SafeANormalize)| ≤ 1e-5
    rw [dot_safeANormalize_cross_fst]
    norm_num
  · intro hz
    show |Float3.dot (GetFwdFromRot r) (GetRgtFromRot r)| ≤ 1e-5
    have h0 : Float3.dot (GetFwdFromRot r) (GetRgtFromRot r) = 0 := by
      simp only [GetFwdFromRot, GetRgtFromRot, Float3.dot, HALFPI, hz, sub_zero,
        Float3.mk_x, Float3.mk_y, Float3.mk_z]
      rw [Real.sin_pi_div_two, Real.cos_pi_div_two, Real.sin_add_pi_div_two,
        Real.cos_add_pi_div_two]
      ring
    rw [h0]
    norm_num

/-- C5 (counterexample): at rotation (0, 0, pi/2) - a pure quarter roll -
the basis produced by UpdateDirsFromRot has forward.dot right = 1, far
outside the 1e-5 tolerance the claim asserts for all rotation triples. -/
theorem update_dirs_basis_orthogonality_counterexample :
    (1e-5 : ℝ) < |Float3.dot (UpdateDirsFromRot cam0 ⟨0, 0, Real.pi / 2⟩).forward
        (UpdateDirsFromRot cam0 ⟨0, 0, Real.pi / 2⟩).right| := by
  have hd : Float3.dot (UpdateDirsFromRot cam0 ⟨0, 0, Real.pi / 2⟩).forward
      (UpdateDirsFromRot cam0 ⟨0, 0, Real.pi / 2⟩).right = 1 := by
    show Float3.dot (GetFwdFromRot ⟨0, 0, Real.pi / 2⟩) (GetRgtFromRot ⟨0, 0, Real.pi / 2⟩) = 1
    simp [GetFwdFromRot, GetRgtFromRot, Float3.dot, HALFPI]
  rw [hd]
  norm_num

/-- Concrete instance of the amended C5: at the zero rotation the whole
basis is orthogonal. -/
theorem update_dirs_basis_orthogonality_witness :
    ZeroVector.z = 0 ∧
      |Float3.dot (UpdateDirsFromRot cam0 ZeroVector).forward
          (UpdateDirsFromRot cam0 ZeroVector).right| ≤ 1e-5 :=
  ⟨rfl, (update_dirs_basis_orthogonality cam0 ZeroVector).2.2 rfl⟩

/-- C9: with EdgeMoveDynamic = false, EdgeMoveWidth = 0.02 and a
single-screen viewport of width 1000 (border = 20 pixels), a cursor in
the right-edge border region (the rightmost pixel column being 999)
produces the maximum positive x step: the frame-time-scaled binary value
lastFrameTime * 0.001 * 1, not a distance-faded one. -/
theorem edge_move_right_edge_max_step (lastFrameTime : ℚ) (slw fst : Bool)
    (viewSizeY lasty : ℤ) (lastx : ℤ) (hlo : 980 ≤ lastx) (hhi : lastx ≤ 999) :
    (GetMoveVectorFromState lastFrameTime slw fst 1000 viewSizeY false 0.02 false lastx lasty).1
      = lastFrameTime * (1 / 1000) := by
  unfold GetMoveVectorFromState
  have hmin : min lastx (1000 : ℤ) = lastx := min_eq_left (by omega)
  have hmax : max (0 : ℤ) lastx = lastx := max_eq_right (by omega)
  have hfloor : truncToInt (((1000 : ℤ) : ℚ) * 0.02) = 20 := by
    unfold truncToInt
    rw [if_neg (by norm_num)]
    rw [show (((1000 : ℤ) : ℚ) * 0.02) = ((20 : ℤ) : ℚ) by norm_num]
    exact Int.floor_intCast 20
  have hcond : (((1000 : ℤ) - 1 : ℤ) : ℚ) - ((lastx : ℤ) : ℚ) < ((lastx : ℤ) : ℚ) := by
    push_cast
    have : (980 : ℚ) ≤ (lastx : ℚ) := by exact_mod_cast hlo
    linarith
  simp only [ClampInt, hmin, hmax, Bool.false_eq_true, if_false, hfloor]
  rw [if_pos hcond]
  have habs : |-(-((((1000 : ℤ) - 1 : ℤ) : ℚ) - ((lastx : ℤ) : ℚ)))| < ((max (1 : ℤ) 20 : ℤ) : ℚ) := by
    push_cast
    have h1 : (lastx : ℚ) ≤ 999 := by exact_mod_cast hhi
    have h2 : (980 : ℚ) ≤ (lastx : ℚ) := by exact_mod_cast hlo
    rw [abs_of_nonneg (by linarith)]
    norm_num
    linarith
  rw [if_pos habs]
  unfold copysignQ
  have hsgn : ¬(-(-((((1000 : ℤ) - 1 : ℤ) : ℚ) - ((lastx : ℤ) : ℚ))) < 0) := by
    push_cast
    have h1 : (lastx : ℚ) ≤ 999 := by exact_mod_cast hhi
    simp only [neg_neg]
    linarith
  rw [if_neg hsgn, abs_one]
  ring

/-- Concrete instance of C9: at the rightmost pixel column 999 with frame
time 1, the x component is the full positive step 1/1000. -/
theorem edge_move_right_edge_max_step_witness :
    (980 : ℤ) ≤ 999 ∧ (999 : ℤ) ≤ 999 ∧
      (GetMoveVectorFromState 1 false false 1000 768 false 0.02 false 999 384).1
        = 1 * (1 / 1000) :=
  ⟨by decide, by decide,
    edge_move_right_edge_max_step 1 false false 768 384 999 (by decide) (by decide)⟩

/-- C4: for every normalized direction d, GetFwdFromRot(GetRotFromDir(d))
reproduces d within 1e-4 per component (in the real-number model the
round trip is exact), and the roll component returned by GetRotFromDir is
always 0. -/
theorem rot_dir_roundtrip (d : Float3) (h : d.Length = 1) :
    |(GetFwdFromRot (GetRotFromDir d)).x - d.x| ≤ 1e-4 ∧
    |(GetFwdFromRot (GetRotFromDir d)).y - d.y| ≤ 1e-4 ∧
    |(GetFwdFromRot (GetRotFromDir d)).z - d.z| ≤ 1e-4 ∧
    (GetRotFromDir d).z = 0 := by
  have h0 : 0 ≤ d.SqLength :=
    add_nonneg (add_nonneg (mul_self_nonneg _) (mul_self_nonneg _)) (mul_self_nonneg _)
  have hsq : d.SqLength = 1 := by
    have h2 : Real.sqrt d.SqLength = 1 := h
    exact Real.sqrt_eq_one.mp h2
  have hne : ¬ d.SqLength = 0 := by rw [hsq]; norm_num
  have hnorm : d.SafeANormalize = d := by
    unfold Float3.SafeANormalize
    rw [if_neg hne]
    unfold Float3.Length
    rw [hsq, Real.sqrt_one]
    refine Float3.ext3 _ _ ?_ ?_ ?_ <;> simp
  have hrot : GetRotFromDir d = ⟨Real.arccos d.y, atan2 d.x (-d.z), 0⟩ := by
    simp only [GetRotFromDir, hnorm]
  have hsides : d.x * d.x + d.y * d.y + d.z * d.z = 1 := hsq
  have hyl : -1 ≤ d.y := by
    nlinarith [mul_self_nonneg d.x, mul_self_nonneg d.z, mul_self_nonneg (d.y + 1)]
  have hyu : d.y ≤ 1 := by
    nlinarith [mul_self_nonneg d.x, mul_self_nonneg d.z, mul_self_nonneg (d.y - 1)]
  have hcos : Real.cos (Real.arccos d.y) = d.y := Real.cos_arccos hyl hyu
  have h1my : 1 - d.y ^ 2 = d.x ^ 2 + d.z ^ 2 := by nlinarith
  have hsin : Real.sin (Real.arccos d.y) = Real.sqrt (d.x ^ 2 + d.z ^ 2) := by
    rw [Real.sin_arccos, h1my]
  rw [hrot]
  simp only [GetFwdFromRot, Float3.mk_x, Float3.mk_y, Float3.mk_z]
  rw [hcos, hsin]
  by_cases hc : (⟨-d.z, d.x⟩ : ℂ) = 0
  · have hx0 : d.x = 0 := by
      have h3 := congrArg Complex.im hc
      simpa using h3
    have hz0 : d.z = 0 := by
      have h3 := congrArg Complex.re hc
      simpa using h3
    rw [hx0, hz0]
    norm_num
  · have hre : (⟨-d.z, d.x⟩ : ℂ).re = -d.z := rfl
    have him : (⟨-d.z, d.x⟩ : ℂ).im = d.x := rfl
    have habs : Complex.abs ⟨-d.z, d.x⟩ = Real.sqrt (d.x ^ 2 + d.z ^ 2) := by
      rw [Complex.abs_apply, Complex.normSq_mk]
      congr 1
      ring
    have hne2 : d.x ≠ 0 ∨ d.z ≠ 0 := by
      by_contra hcon
      push_neg at hcon
      exact hc (Complex.ext (by simp [hcon.2]) (by simp [hcon.1]))
    have hpos2 : 0 < d.x ^ 2 + d.z ^ 2 := by
      rcases hne2 with hh | hh
      · nlinarith [mul_self_pos.mpr hh, mul_self_nonneg d.z]
      · nlinarith [mul_self_pos.mpr hh, mul_self_nonneg d.x]
    have hspos : 0 < Real.sqrt (d.x ^ 2 + d.z ^ 2) := Real.sqrt_pos.mpr hpos2
    have hX : Real.sqrt (d.x ^ 2 + d.z ^ 2) * Real.sin (atan2 d.x (-d.z)) = d.x := by
      unfold atan2
      rw [Complex.sin_arg, him, habs, mul_comm, div_mul_cancel₀ _ (ne_of_gt hspos)]
    have hZ : Real.sqrt (d.x ^ 2 + d.z ^ 2) * (-Real.cos (atan2 d.x (-d.z))) = d.z := by
      unfold atan2
      rw [Complex.cos_arg hc, hre, habs, neg_div, neg_neg, mul_comm,
        div_mul_cancel₀ _ (ne_of_gt hspos)]
    rw [hX, hZ]
    norm_num

/-- Concrete instance of C4: the unit direction (0, 0, 1) round-trips
through GetRotFromDir and GetFwdFromRot. -/
theorem rot_dir_roundtrip_witness :
    FwdVector.Length = 1 ∧
      |(GetFwdFromRot (GetRotFromDir FwdVector)).x - FwdVector.x| ≤ 1e-4 := by
  have hl : FwdVector.Length = 1 := by
    unfold Float3.Length Float3.SqLength FwdVector
    norm_num
  exact ⟨hl, (rot_dir_roundtrip FwdVector hl).1⟩

end SpringCamera
